import Mathlib

/-!
Shallow embedding of the Canvas LMS client (`src/canvas/client.py`).

Python dicts are modelled as Lean structures holding exactly the fields the
client reads; a field read with `.get(key, default)` becomes an `Option`
field (with `none` for an absent key) and the default is applied at the use
site, mirroring the source.  Python exceptions are modelled with
`Except String`, carrying the exception message.  `datetime` values are
modelled by `PyDateTime` below; comparisons between naive and aware values
return `none`, modelling Python's `TypeError`.
-/

/-- Python `str.replace('Z', '+00:00')`, as called in `format_date` and in
`get_upcoming_assignments` / `get_course_summary` (single-character pattern,
every occurrence replaced). -/
def replaceZ : List Char → List Char
  | [] => []
  | c :: r =>
    if c = 'Z' then '+' :: '0' :: '0' :: ':' :: '0' :: '0' :: replaceZ r
    else c :: replaceZ r

/-- Python substring test `pat in s` (`in` on str). -/
def containsSub (pat : List Char) : List Char → Bool
  | [] => pat.isEmpty
  | c :: r => pat.isPrefixOf (c :: r) || containsSub pat r

/-- The pattern `"course_"` used by `get_announcements`. -/
def coursePat : List Char := ['c', 'o', 'u', 'r', 's', 'e', '_']

/-- Python `str.replace("course_", "")` from `get_announcements`: every
occurrence of the pattern is removed, scanning left to right without
overlap. -/
def removeCourseOcc : List Char → List Char
  | [] => []
  | c :: r =>
    if coursePat.isPrefixOf (c :: r) then removeCourseOcc (r.drop 6)
    else c :: removeCourseOcc r
termination_by l => l.length
decreasing_by
  · have h := (List.drop_sublist 6 r).length_le
    simp only [List.length_cons]
    omega
  · simp only [List.length_cons]; omega

/-- Proleptic Gregorian leap year, as in Python's `datetime`. -/
def isLeap (y : Nat) : Bool := (y % 4 == 0 && y % 100 != 0) || y % 400 == 0

/-- Length of a month, as in Python's `datetime`. -/
def daysInMonth (y m : Nat) : Nat :=
  if m == 2 then (if isLeap y then 29 else 28)
  else if m == 4 || m == 6 || m == 9 || m == 11 then 30
  else 31

/-- Days in the years before year `y` (proleptic Gregorian, year 1 based),
matching Python's `date.toordinal` arithmetic. -/
def daysBeforeYear (y : Nat) : Nat :=
  365 * (y - 1) + (y - 1) / 4 - (y - 1) / 100 + (y - 1) / 400

/-- Days in the months of year `y` before month `m`. -/
def daysBeforeMonth (y m : Nat) : Nat :=
  (List.range (m - 1)).foldl (fun acc i => acc + daysInMonth y (i + 1)) 0

/-- A Python `datetime` value: calendar fields plus an optional UTC offset in
minutes.  `tzMinutes = none` models a naive datetime, `some k` an aware one
(`timezone.utc` is `some 0`). -/
structure PyDateTime where
  year : Nat
  month : Nat
  day : Nat
  hour : Nat
  minute : Nat
  second : Nat
  tzMinutes : Option Int
deriving DecidableEq, Repr

/-- Seconds since 0001-01-01 00:00:00, ignoring the offset. -/
def naiveSec (d : PyDateTime) : Nat :=
  86400 * (daysBeforeYear d.year + daysBeforeMonth d.year d.month + (d.day - 1))
    + 3600 * d.hour + 60 * d.minute + d.second

/-- Absolute (UTC) seconds of an aware datetime whose offset is `off` minutes. -/
def utcSec (d : PyDateTime) (off : Int) : Int := (naiveSec d : Int) - 60 * off

/-- Python `a <= b` on datetimes: naive/aware mixing raises `TypeError`,
modelled as `none`. -/
def dtLe (a b : PyDateTime) : Option Bool :=
  match a.tzMinutes, b.tzMinutes with
  | none, none => some (decide (naiveSec a ≤ naiveSec b))
  | some x, some y => some (decide (utcSec a x ≤ utcSec b y))
  | _, _ => none

/-- The calendar successor day (time-of-day and offset unchanged). -/
def nextDay (d : PyDateTime) : PyDateTime :=
  if d.day < daysInMonth d.year d.month then { d with day := d.day + 1 }
  else if d.month < 12 then { d with month := d.month + 1, day := 1 }
  else { d with year := d.year + 1, month := 1, day := 1 }

/-- Python `d + timedelta(days=n)` for a natural `n`. -/
def addDays : PyDateTime → Nat → PyDateTime
  | d, 0 => d
  | d, n + 1 => addDays (nextDay d) n

/-- The calendar predecessor day (time-of-day and offset unchanged). -/
def prevDay (d : PyDateTime) : PyDateTime :=
  if 1 < d.day then { d with day := d.day - 1 }
  else if 1 < d.month then { d with month := d.month - 1, day := daysInMonth d.year (d.month - 1) }
  else { d with year := d.year - 1, month := 12, day := 31 }

/-- Python `d - timedelta(days=n)` for a natural `n`. -/
def subDays : PyDateTime → Nat → PyDateTime
  | d, 0 => d
  | d, n + 1 => subDays (prevDay d) n

/-- Two-digit zero padding. -/
def pad2 (n : Nat) : String := if n < 10 then "0" ++ toString n else toString n

/-- Four-digit zero padding. -/
def pad4 (n : Nat) : String :=
  if n < 10 then "000" ++ toString n
  else if n < 100 then "00" ++ toString n
  else if n < 1000 then "0" ++ toString n
  else toString n

/-- strftime month name `%B`. -/
def monthName : Nat → String
  | 1 => "January"
  | 2 => "February"
  | 3 => "March"
  | 4 => "April"
  | 5 => "May"
  | 6 => "June"
  | 7 => "July"
  | 8 => "August"
  | 9 => "September"
  | 10 => "October"
  | 11 => "November"
  | 12 => "December"
  | _ => ""

/-- `dt.strftime("%B %d, %Y at %I:%M %p")` from `format_date`. -/
def strftimeLong (d : PyDateTime) : String :=
  monthName d.month ++ " " ++ pad2 d.day ++ ", " ++ toString d.year ++ " at "
    ++ pad2 (if d.hour % 12 == 0 then 12 else d.hour % 12) ++ ":" ++ pad2 d.minute
    ++ " " ++ (if d.hour < 12 then "AM" else "PM")

/-- The `±HH:MM` suffix of `datetime.isoformat` for an aware value. -/
def offsetIso : Option Int → String
  | none => ""
  | some m => (if m < 0 then "-" else "+") ++ pad2 (m.natAbs / 60) ++ ":" ++ pad2 (m.natAbs % 60)

/-- `datetime.isoformat()` (whole-second model: the client only ever parses or
forwards these strings opaquely). -/
def isoformat (d : PyDateTime) : String :=
  pad4 d.year ++ "-" ++ pad2 d.month ++ "-" ++ pad2 d.day ++ "T" ++ pad2 d.hour ++ ":"
    ++ pad2 d.minute ++ ":" ++ pad2 d.second ++ offsetIso d.tzMinutes

/-- Parse two decimal digits. -/
def digit2 : List Char → Option (Nat × List Char)
  | a :: b :: r =>
    if a.isDigit && b.isDigit then some ((a.toNat - 48) * 10 + (b.toNat - 48), r) else none
  | _ => none

/-- Parse four decimal digits. -/
def digit4 : List Char → Option (Nat × List Char)
  | a :: b :: c :: d :: r =>
    if a.isDigit && b.isDigit && c.isDigit && d.isDigit then
      some ((a.toNat - 48) * 1000 + (b.toNat - 48) * 100 + (c.toNat - 48) * 10 + (d.toNat - 48), r)
    else none
  | _ => none

/-- Parse the end of an ISO string: either nothing (naive) or a `±HH:MM`
offset; anything else fails. -/
def parseOffsetPart : List Char → Option (Option Int)
  | [] => some none
  | c :: r =>
    if c = '+' || c = '-' then
      match digit2 r with
      | some (h, r1) =>
        match r1 with
        | ':' :: r2 =>
          match digit2 r2 with
          | some (mi, r3) =>
            if r3 = [] ∧ h < 24 ∧ mi < 60 then
              some (some (if c = '-' then -(((h * 60 + mi : Nat) : Int)) else ((h * 60 + mi : Nat) : Int)))
            else none
          | none => none
        | _ => none
      | none => none
    else none

/-- Parse `HH:MM[:SS]`, returning the unconsumed rest. -/
def parseTimePart (l : List Char) : Option (Nat × Nat × Nat × List Char) :=
  match digit2 l with
  | some (h, r1) =>
    match r1 with
    | ':' :: r2 =>
      match digit2 r2 with
      | some (mi, r3) =>
        match r3 with
        | ':' :: r4 =>
          match digit2 r4 with
          | some (s, r5) => some (h, mi, s, r5)
          | none => none
        | _ => some (h, mi, 0, r3)
      | none => none
    | _ => none
  | none => none

/-- Model of `datetime.fromisoformat` on the shapes this client meets:
`YYYY-MM-DD`, optionally one separator character and `HH:MM[:SS]`, optionally
a `±HH:MM` offset; field ranges validated; everything else fails (`none`
models the raised `ValueError`). -/
def parseISO (l : List Char) : Option PyDateTime :=
  match digit4 l with
  | none => none
  | some (y, r1) =>
    match r1 with
    | '-' :: r2 =>
      match digit2 r2 with
      | none => none
      | some (mo, r3) =>
        match r3 with
        | '-' :: r4 =>
          match digit2 r4 with
          | none => none
          | some (d, r5) =>
            if 1 ≤ mo ∧ mo ≤ 12 ∧ 1 ≤ d ∧ d ≤ daysInMonth y mo then
              match r5 with
              | [] => some ⟨y, mo, d, 0, 0, 0, none⟩
              | _ :: r6 =>
                match parseTimePart r6 with
                | none => none
                | some (h, mi, s, r7) =>
                  if h < 24 ∧ mi < 60 ∧ s < 60 then
                    match parseOffsetPart r7 with
                    | none => none
                    | some off => some ⟨y, mo, d, h, mi, s, off⟩
                  else none
            else none
        | _ => none
    | _ => none

/-- `format_date` from `client.py`: falsy (absent or empty) input gives
`"No date"`; a parseable ISO string is reformatted; a parse failure returns
the input unchanged. -/
def format_date : Option String → String
  | none => "No date"
  | some s =>
    if s = "" then "No date"
    else
      match parseISO (replaceZ s.toList) with
      | some dt => strftimeLong dt
      | none => s

/-! ## Data model: raw API records and the client's normalized records -/

/-- The `"term"` object read by `get_courses`. -/
structure RawTerm where
  name : Option String
deriving DecidableEq, Repr

/-- One entry of a course's `"enrollments"` array, as read by `get_courses`. -/
structure RawEnrollmentEntry where
  computed_current_grade : Option String
deriving DecidableEq, Repr

/-- A raw course record; `enrollments = none` models the key being absent
(the code's `.get("enrollments", [{}])` default applies only then). -/
structure RawCourse where
  id : Nat
  name : String
  course_code : Option String
  term : Option RawTerm
  enrollments : Option (List RawEnrollmentEntry)
deriving DecidableEq, Repr

/-- The simplified course record produced by `get_courses`. -/
structure CourseOut where
  id : Nat
  name : String
  course_code : String
  enrollment_term : String
  current_grade : Option String
deriving DecidableEq, Repr

/-- The projection inside `get_courses`' list comprehension.
`course.get("enrollments", [{}])[0]` raises `IndexError` (message
`"list index out of range"`) when the key is present with an empty list. -/
def projCourse (c : RawCourse) : Except String CourseOut :=
  match c.enrollments with
  | some [] => Except.error "list index out of range"
  | some (e :: _) =>
    Except.ok ⟨c.id, c.name, c.course_code.getD "", (c.term.bind RawTerm.name).getD "",
               e.computed_current_grade⟩
  | none =>
    Except.ok ⟨c.id, c.name, c.course_code.getD "", (c.term.bind RawTerm.name).getD "", none⟩

/-- `get_courses` over the result of its single API request. -/
def get_courses (fetch : Except String (List RawCourse)) : Except String (List CourseOut) :=
  match fetch with
  | Except.error e => Except.error e
  | Except.ok cs => cs.mapM projCourse

/-- The `"submission"` object included with an assignment. -/
structure RawSubmission where
  submitted_at : Option String
  grade : Option String
  score : Option String
  workflow_state : Option String
deriving DecidableEq, Repr

/-- A raw assignment record, holding the fields `get_assignments` reads. -/
structure RawAssignment where
  id : Nat
  name : String
  due_at : Option String
  points_possible : Option String
  submission_types : Option (List String)
  has_submitted_submissions : Option Bool
  is_quiz_lti_assignment : Option Bool
  submission : Option RawSubmission
deriving DecidableEq, Repr

/-- The normalized assignment record produced by `get_assignments`. -/
structure AssignmentOut where
  id : Nat
  name : String
  due_at : String
  due_at_raw : Option String
  points_possible : Option String
  submission_types : List String
  submitted : Bool
  grade : Option String
  score : Option String
  workflow_state : Option String
  is_quiz : Bool
deriving DecidableEq, Repr

/-- The per-assignment projection of `get_assignments`, including the quiz
classification. -/
def mkAssignmentOut (a : RawAssignment) : AssignmentOut :=
  ⟨a.id, a.name, format_date a.due_at, a.due_at,
   a.points_possible, a.submission_types.getD [],
   a.has_submitted_submissions.getD false,
   a.submission.bind RawSubmission.grade,
   a.submission.bind RawSubmission.score,
   a.submission.bind RawSubmission.workflow_state,
   (a.submission_types.getD []).contains "online_quiz"
     || a.is_quiz_lti_assignment.getD false
     || containsSub "Quiz".toList a.name.toList⟩

/-- `get_assignments` over the result of its single API request. -/
def get_assignments (l : List RawAssignment) : List AssignmentOut := l.map mkAssignmentOut

/-- An entry of `get_upcoming_assignments`' result: the assignment record
merged with the owning course's name and code. -/
structure UpcomingOut where
  assignment : AssignmentOut
  course_name : String
  course_code : String
deriving DecidableEq, Repr

/-- The body of `get_upcoming_assignments`' per-course loop.  Note the loop
reads `assignment["due_at"]` — the *display-formatted* date — and feeds it to
`fromisoformat`; a raised `ValueError`/`TypeError` is caught by the
per-course handler, which abandons the rest of this course's assignments
(entries appended before the exception are kept). -/
def scanAssignments (now fut : PyDateTime) (c : CourseOut) : List AssignmentOut → List UpcomingOut
  | [] => []
  | a :: rest =>
    if a.due_at = "" then scanAssignments now fut c rest
    else
      match parseISO (replaceZ a.due_at.toList) with
      | none => []
      | some due =>
        match dtLe now due with
        | none => []
        | some false => scanAssignments now fut c rest
        | some true =>
          match dtLe due fut with
          | none => []
          | some true => ⟨a, c.name, c.course_code⟩ :: scanAssignments now fut c rest
          | some false => scanAssignments now fut c rest

/-- One course's contribution to `get_upcoming_assignments`: a failing
assignments fetch is caught and the course skipped. -/
def courseUpcoming (now fut : PyDateTime) (c : CourseOut)
    (fetch : Except String (List RawAssignment)) : List UpcomingOut :=
  match fetch with
  | Except.error _ => []
  | Except.ok raws => scanAssignments now fut c (get_assignments raws)

/-- Python string `<=` on the due-date keys (lexicographic on code points). -/
def strLeLex : List Char → List Char → Bool
  | [], _ => true
  | _ :: _, [] => false
  | a :: xs, b :: ys =>
    if a.toNat < b.toNat then true else if a.toNat = b.toNat then strLeLex xs ys else false

/-- Stable insertion for `list.sort(key=lambda x: x["due_at"])`. -/
def insertByDue (x : UpcomingOut) : List UpcomingOut → List UpcomingOut
  | [] => [x]
  | y :: r =>
    if strLeLex x.assignment.due_at.toList y.assignment.due_at.toList then x :: y :: r
    else y :: insertByDue x r

/-- Stable sort by the (formatted) `due_at` key. -/
def sortByDue : List UpcomingOut → List UpcomingOut
  | [] => []
  | x :: r => insertByDue x (sortByDue r)

/-- `get_upcoming_assignments(days)`: `courses` is the projected course list,
`fetch` gives each course's assignments request result, `now` is
`datetime.now(timezone.utc)`. -/
def get_upcoming_assignments (courses : List CourseOut)
    (fetch : Nat → Except String (List RawAssignment))
    (now : PyDateTime) (days : Nat) : List UpcomingOut :=
  sortByDue ((courses.map (fun c => courseUpcoming now (addDays now days) c (fetch c.id))).flatten)

/-- The `"grades"` object of an enrollment, as read by `get_grades`. -/
structure RawGrades where
  current_score : Option String
  current_grade : Option String
  final_score : Option String
  final_grade : Option String
  unposted_current_score : Option String
  unposted_current_grade : Option String
deriving DecidableEq, Repr

/-- A raw enrollment record, as read by `get_grades`. -/
structure RawEnrollment where
  grades : Option RawGrades
deriving DecidableEq, Repr

/-- `get_grades`' result: either the `{"error": "No enrollment found"}`
sentinel or the projected grade fields. -/
inductive GradesResult
  | sentinel (msg : String)
  | grades (current_score current_grade final_score final_grade
      unposted_current_score unposted_current_grade : Option String)
deriving DecidableEq, Repr

/-- `get_grades` over the result of its enrollments request; a failed request
propagates as an exception (`Except.error`). -/
def get_grades (fetch : Except String (List RawEnrollment)) : Except String GradesResult :=
  match fetch with
  | Except.error e => Except.error e
  | Except.ok [] => Except.ok (GradesResult.sentinel "No enrollment found")
  | Except.ok (e :: _) =>
    Except.ok (GradesResult.grades
      (e.grades.bind RawGrades.current_score)
      (e.grades.bind RawGrades.current_grade)
      (e.grades.bind RawGrades.final_score)
      (e.grades.bind RawGrades.final_grade)
      (e.grades.bind RawGrades.unposted_current_score)
      (e.grades.bind RawGrades.unposted_current_grade))

/-- The `"author"` object of announcements and discussions. -/
structure RawAuthor where
  display_name : Option String
deriving DecidableEq, Repr

/-- A raw announcement record, as read by `get_announcements`. -/
structure RawAnnouncement where
  id : Nat
  title : String
  message : String
  posted_at : Option String
  author : Option RawAuthor
  context_code : Option String
deriving DecidableEq, Repr

/-- The query parameters of `get_announcements`' single API request. -/
structure AnnParams where
  context_codes : List String
  start_date : String
deriving DecidableEq, Repr

/-- The normalized announcement record. -/
structure AnnOut where
  id : Nat
  title : String
  message : String
  posted_at : Option String
  author : String
  course_id : String
deriving DecidableEq, Repr

/-- The per-announcement projection of `get_announcements`; `course_id` is
`ann.get("context_code", "").replace("course_", "")`. -/
def projAnnouncement (a : RawAnnouncement) : AnnOut :=
  ⟨a.id, a.title, a.message, a.posted_at,
   (a.author.bind RawAuthor.display_name).getD "Unknown",
   (removeCourseOcc (a.context_code.getD "").toList).asString⟩

/-- The combined query `get_announcements` builds: one context code per
course, and `start_date = (now - timedelta(days=days)).isoformat()`. -/
def announcementsParams (courses : List CourseOut) (now : PyDateTime) (days : Nat) : AnnParams :=
  ⟨courses.map (fun c => "course_" ++ toString c.id), isoformat (subDays now days)⟩

/-- `get_announcements(days)`: `courses` is the projected course list, `now`
is naive `datetime.now()`, and `respond` is the API's answer to the single
request the method issues. -/
def get_announcements (courses : List CourseOut) (now : PyDateTime) (days : Nat)
    (respond : AnnParams → List RawAnnouncement) : List AnnOut :=
  (respond (announcementsParams courses now days)).map projAnnouncement

/-- The per-assignment filter of `get_course_summary`'s upcoming-assignments
section.  It parses `due_at_raw` and compares against the *naive* `now`; a
parse error or the `TypeError` from comparing naive with aware datetimes is
caught per assignment (`except: continue`). -/
def summaryUpcoming (now fut : PyDateTime) : List AssignmentOut → List AssignmentOut
  | [] => []
  | a :: rest =>
    match a.due_at_raw with
    | none => summaryUpcoming now fut rest
    | some s =>
      if s = "" then summaryUpcoming now fut rest
      else
        match parseISO (replaceZ s.toList) with
        | none => summaryUpcoming now fut rest
        | some due =>
          match dtLe now due with
          | none => summaryUpcoming now fut rest
          | some false => summaryUpcoming now fut rest
          | some true =>
            match dtLe due fut with
            | none => summaryUpcoming now fut rest
            | some true => a :: summaryUpcoming now fut rest
            | some false => summaryUpcoming now fut rest

/-- The record `get_course_summary` builds on success. -/
structure SummaryOut where
  course_name : String
  course_code : String
  grades : GradesResult
  upcoming_assignments : List AssignmentOut
  recent_announcements : List AnnOut
deriving DecidableEq, Repr

/-- `get_course_summary`'s result: the summary record, or one of the
`{"error": ...}` records. -/
inductive SummaryResult
  | err (msg : String)
  | ok (s : SummaryOut)
deriving DecidableEq, Repr

/-- `get_course_summary(course_id)`.  `coursesFetch`, `enrollFetch` and
`assignFetch` are the results of the underlying requests, `now` is the naive
`datetime.now()` of the method body.  The grades call sits inside the
summary-dict literal and is *not* wrapped by an inner try, so its exception
reaches the outer handler; the assignments section has its own inner
try/except; the announcements call `get_announcements(course_id)` passes the
string course id where the integer day count is expected, so
`timedelta(days=course_id)` raises `TypeError` and the inner except always
leaves that section empty. -/
def get_course_summary (coursesFetch : Except String (List RawCourse))
    (enrollFetch : Except String (List RawEnrollment))
    (assignFetch : Except String (List RawAssignment))
    (now : PyDateTime) (course_id : String) : SummaryResult :=
  match get_courses coursesFetch with
  | Except.error e => SummaryResult.err ("Could not fetch course summary: " ++ e)
  | Except.ok courses =>
    match courses.find? (fun c => toString c.id == course_id) with
    | none => SummaryResult.err "Course not found"
    | some course =>
      match get_grades enrollFetch with
      | Except.error e => SummaryResult.err ("Could not fetch course summary: " ++ e)
      | Except.ok g =>
        SummaryResult.ok ⟨course.name, course.course_code, g,
          (match assignFetch with
           | Except.error _ => []
           | Except.ok raws => summaryUpcoming now (addDays now 7) (get_assignments raws)),
          []⟩

/-- A raw file record, as read by `get_course_files`. -/
structure RawFile where
  id : Nat
  display_name : Option String
  filename : Option String
  size : Option Nat
  content_type : Option String
  url : Option String
  created_at : Option String
  updated_at : Option String
  folder_id : Option Nat
deriving DecidableEq, Repr

/-- The normalized file record of `get_course_files`. -/
structure FileOut where
  id : Nat
  display_name : String
  filename : String
  size : Nat
  content_type : String
  url : String
  created_at : Option String
  updated_at : Option String
  folder_id : Option Nat
deriving DecidableEq, Repr

/-- `get_course_files` over the result of its single API request. -/
def get_course_files (files : List RawFile) : List FileOut :=
  files.map (fun f =>
    ⟨f.id, f.display_name.getD "", f.filename.getD "", f.size.getD 0, f.content_type.getD "",
     f.url.getD "", f.created_at, f.updated_at, f.folder_id⟩)

/-! ## get_discussions and its strip_html helper -/

/-- ASCII whitespace as recognized by Python's `str.split()` (the model is
restricted to ASCII characters). -/
def pyIsSpace (c : Char) : Bool :=
  c == ' ' || c == '\t' || c == '\n' || c == '\r' || c == '\x0b' || c == '\x0c'

/-- `re.sub(r'<[^>]+>', '', text)`: scan left to right; at a `'<'`, a match
consumes up to and including the first following `'>'` provided at least one
character stands between them; on a match the scan resumes after the `'>'`,
otherwise the scan advances one character. -/
def stripTags : List Char → List Char
  | [] => []
  | ['<'] => ['<']
  | '<' :: '>' :: rest2 => '<' :: stripTags ('>' :: rest2)
  | '<' :: d :: rest2 =>
    if rest2.any (fun x => x == '>') then stripTags ((rest2.dropWhile (fun x => x != '>')).tail)
    else '<' :: stripTags (d :: rest2)
  | c :: rest => c :: stripTags rest
termination_by l => l.length
decreasing_by
  all_goals simp only [List.length_cons, List.length_tail]
  · omega
  · have h : (rest2.dropWhile (fun x => x != '>')).Sublist rest2 :=
      List.dropWhile_sublist _
    have h2 := h.length_le
    omega
  · omega
  · omega

/-- Python `text.split()`: maximal runs of non-whitespace characters. -/
def words : List Char → List (List Char)
  | [] => []
  | c :: r =>
    if pyIsSpace c then words r
    else (c :: r.takeWhile (fun d => !pyIsSpace d)) :: words (r.dropWhile (fun d => !pyIsSpace d))
termination_by l => l.length
decreasing_by
  · simp only [List.length_cons]; omega
  · have h : (r.dropWhile (fun d => !pyIsSpace d)).Sublist r := List.dropWhile_sublist _
    have h2 := h.length_le
    simp only [List.length_cons]
    omega

/-- `' '.join(ws)`. -/
def joinSp : List (List Char) → List Char
  | [] => []
  | [w] => w
  | w :: w2 :: rest => w ++ ' ' :: joinSp (w2 :: rest)

/-- `' '.join(text.split())`: collapse whitespace runs to single spaces and
trim the ends. -/
def collapseWs (l : List Char) : List Char := joinSp (words l)

/-- `text[:300] + "..." if len(text) > 300 else text`. -/
def truncate300 (l : List Char) : List Char :=
  if 300 < l.length then l.take 300 ++ ['.', '.', '.'] else l

/-- `strip_html` from `get_discussions`: falsy input gives `""`, otherwise
remove tags, collapse whitespace, truncate. -/
def strip_html (s : String) : String :=
  if s = "" then ""
  else (truncate300 (collapseWs (stripTags s.toList))).asString

/-- A raw discussion-topic record, as read by `get_discussions`. -/
structure RawDiscussion where
  id : Nat
  title : String
  message : Option String
  posted_at : Option String
  author : Option RawAuthor
  unread_count : Option Nat
  discussion_subentry_count : Option Nat
deriving DecidableEq, Repr

/-- The normalized discussion record. -/
structure DiscOut where
  id : Nat
  title : String
  message : String
  posted_at : Option String
  author : String
  unread_count : Nat
  reply_count : Nat
deriving DecidableEq, Repr

/-- An entry of `get_discussions`' result: a data record or one of the
sentinel records (`{"message": ...}` / `{"error": ...}`). -/
inductive DiscEntry
  | data (d : DiscOut)
  | message (msg : String)
  | error (msg : String)
deriving DecidableEq, Repr

/-- `get_discussions` over the result of its single API request. -/
def get_discussions (fetch : Except String (List RawDiscussion)) : List DiscEntry :=
  match fetch with
  | Except.error e => [DiscEntry.error ("Could not fetch discussions: " ++ e)]
  | Except.ok [] => [DiscEntry.message "No discussions found for this course"]
  | Except.ok (d :: rest) =>
    (d :: rest).map (fun x =>
      DiscEntry.data ⟨x.id, x.title, strip_html (x.message.getD ""), x.posted_at,
        (x.author.bind RawAuthor.display_name).getD "Unknown",
        x.unread_count.getD 0, x.discussion_subentry_count.getD 0⟩)

/-- The message string carried by a result entry (`"message"` key of a data
record or of the no-discussions sentinel; an `{"error": ...}` record has
none). -/
def entryMessage : DiscEntry → Option String
  | DiscEntry.data d => some d.message
  | DiscEntry.message m => some m
  | DiscEntry.error _ => none

/-! ## get_modules and its files fallback -/

/-- A raw module item, as read by `get_modules`. -/
structure RawModuleItem where
  id : Nat
  title : String
  type : String
  indent : Option Nat
deriving DecidableEq, Repr

/-- A raw module record, as read by `get_modules`. -/
structure RawModule where
  id : Nat
  name : String
  position : Option Nat
  unlock_at : Option String
  state : Option String
  published : Option Bool
  items_count : Option Nat
  items : Option (List RawModuleItem)
deriving DecidableEq, Repr

/-- A projected module item. -/
structure ItemOut where
  id : Nat
  title : String
  type : String
  indent : Nat
deriving DecidableEq, Repr

/-- A file formatted as a module item by `_get_files_as_modules`
(its `"type"` is always `"File"`). -/
structure FileItemOut where
  id : Nat
  title : String
  size : Nat
  url : String
deriving DecidableEq, Repr

/-- An entry of `get_modules`' result: a real module, the synthetic
`"Course Files"` module (`is_files_fallback` set), or a sentinel record. -/
inductive ModuleEntry
  | real (id : Nat) (name : String) (position : Nat) (unlock_at : Option String)
      (state : String) (published : Bool) (items_count : Nat) (items : List ItemOut)
  | filesModule (items : List FileItemOut)
  | message (msg : String)
  | error (msg : String)
deriving DecidableEq, Repr

/-- `_get_files_as_modules`: build the synthetic single module from the first
20 files, or a sentinel when there are no files / the fetch fails. -/
def filesAsModules (filesFetch : Except String (List RawFile)) : List ModuleEntry :=
  match filesFetch with
  | Except.error e => [ModuleEntry.error ("Could not fetch modules or files: " ++ e)]
  | Except.ok raw =>
    let files := get_course_files raw
    if files.isEmpty then [ModuleEntry.message "No modules or files found for this course"]
    else
      [ModuleEntry.filesModule
        ((files.take 20).map (fun f => ⟨f.id, f.display_name, f.size, f.url⟩))]

/-- The per-module projection of `get_modules` (first 10 items). -/
def projModule (m : RawModule) : ModuleEntry :=
  ModuleEntry.real m.id m.name (m.position.getD 0) m.unlock_at (m.state.getD "")
    (m.published.getD false) (m.items_count.getD 0)
    (((m.items.getD []).take 10).map (fun i => ⟨i.id, i.title, i.type, i.indent.getD 0⟩))

/-- `get_modules`: an empty *or failing* modules fetch falls back to
`_get_files_as_modules`; otherwise the real modules are projected. -/
def get_modules (modulesFetch : Except String (List RawModule))
    (filesFetch : Except String (List RawFile)) : List ModuleEntry :=
  match modulesFetch with
  | Except.error _ => filesAsModules filesFetch
  | Except.ok ms => if ms.isEmpty then filesAsModules filesFetch else ms.map projModule

/-! ## get_quizzes / get_quiz_submissions -/

/-- An entry of `get_quizzes`' result: a quiz-classified assignment record or
a sentinel record. -/
inductive QuizEntry
  | data (a : AssignmentOut)
  | message (msg : String)
  | error (msg : String)
deriving DecidableEq, Repr

/-- `get_quizzes`: filter the assignments list on the quiz flag; sentinel
when none are quizzes or the fetch fails. -/
def get_quizzes (fetch : Except String (List RawAssignment)) : List QuizEntry :=
  match fetch with
  | Except.error e => [QuizEntry.error ("Could not fetch quizzes: " ++ e)]
  | Except.ok raws =>
    let qs := (get_assignments raws).filter AssignmentOut.is_quiz
    if qs.isEmpty then [QuizEntry.message "No quizzes found for this course"]
    else qs.map QuizEntry.data

/-- Whether an entry is a dict carrying a `"message"` key (only the
no-quizzes sentinel is; data records and `{"error": ...}` records are not). -/
def hasMessageKey : QuizEntry → Bool
  | QuizEntry.message _ => true
  | _ => false

/-- `get_quiz_submissions`: `[q for q in quizzes if not isinstance(q, dict)
or "message" not in q]` over `get_quizzes`' output (every entry is a dict,
so the filter drops exactly the `"message"`-keyed entries). -/
def get_quiz_submissions (fetch : Except String (List RawAssignment)) : List QuizEntry :=
  (get_quizzes fetch).filter (fun q => !hasMessageKey q)

/-! ## The primitive request -/

/-- The distinct failure conditions `_make_request` raises; constructors
correspond to the messages
`"Unauthorized: Check your Canvas access token"`,
`"Forbidden: Insufficient permissions"`, `"Not found: {endpoint}"`,
`"HTTP {status}: ..."` and `"Request failed: ..."`. -/
inductive CanvasError
  | unauthorized
  | forbidden
  | notFound (endpoint : String)
  | httpError (status : Nat)
  | requestFailed (msg : String)
deriving DecidableEq, Repr

/-- What the HTTP layer hands back: a response with a status code and a
parsed body (`none` = unparseable JSON), or a transport-level failure. -/
inductive HttpAttempt (α : Type)
  | response (status : Nat) (body : Option α)
  | transportError (msg : String)
deriving DecidableEq, Repr

/-- `_make_request`: `raise_for_status` fires on 4xx/5xx and the handler maps
the status code to a distinct condition; transport failures (and JSON-decode
failures, which subclass `RequestException`) become `requestFailed`. -/
def make_request {α : Type} (endpoint : String) (attempt : HttpAttempt α) :
    Except CanvasError α :=
  match attempt with
  | HttpAttempt.transportError m => Except.error (CanvasError.requestFailed m)
  | HttpAttempt.response status body =>
    if 400 ≤ status ∧ status < 600 then
      if status = 401 then Except.error CanvasError.unauthorized
      else if status = 403 then Except.error CanvasError.forbidden
      else if status = 404 then Except.error (CanvasError.notFound endpoint)
      else Except.error (CanvasError.httpError status)
    else
      match body with
      | some v => Except.ok v
      | none => Except.error (CanvasError.requestFailed "invalid JSON body")

/-! ## Concrete inputs used by counterexamples and witnesses -/

/-- A raw assignment whose course-wide `has_submitted_submissions` flag is
set while the caller's own submission has a null `submitted_at`. -/
def c2Raw : RawAssignment :=
  ⟨7, "Essay", none, none, none, some true, none, some ⟨none, none, none, none⟩⟩

/-- A raw file record. -/
def c4File : RawFile :=
  ⟨5, some "notes.pdf", none, some 1000, none, some "http://x", none, none, none⟩

/-- A raw module record. -/
def c4Mod : RawModule := ⟨9, "Week 1", some 1, none, some "active", some true, some 0, none⟩

/-- A projected course record with id 123. -/
def c5Course : CourseOut := ⟨123, "CS 101", "CS101", "Fall", some "A"⟩

/-- A naive `datetime.now()` value. -/
def nowNaive : PyDateTime := ⟨2025, 10, 1, 9, 30, 0, none⟩

/-- An announcement whose context code contains `"course_"` twice. -/
def c5Ann : RawAnnouncement :=
  ⟨11, "Midterm", "See syllabus", some "2025-09-30T12:00:00Z", none, some "course_course_123"⟩

/-- An aware `datetime.now(timezone.utc)` value. -/
def nowUtc : PyDateTime := ⟨2025, 10, 1, 12, 0, 0, some 0⟩

/-- A projected course record with id 1. -/
def c1Course : CourseOut := ⟨1, "Course 1", "C1", "Fall", none⟩

/-- A raw assignment due (raw ISO value) one day after `nowUtc`. -/
def c1Raw : RawAssignment :=
  ⟨3, "Homework 1", some "2025-10-02T12:00:00Z", none, none, none, none, none⟩

/-- A raw course record with one enrollment entry. -/
def c3Course : RawCourse := ⟨1, "Course 1", some "C1", none, some [⟨some "B"⟩]⟩

/-- Modelled from the spec's words for C5 ("course id recovered by stripping
a prefix from a context code"): strip `"course_"` only when it is a prefix. -/
def specStripCtx (l : List Char) : List Char :=
  if coursePat.isPrefixOf l then l.drop 7 else l

/-- Modelled from the spec's words for C9 ("Sentinel record: an entry
carrying an `"error"` or `"message"` key"). -/
def isSentinelEntry : QuizEntry → Bool
  | QuizEntry.data _ => false
  | _ => true

/-- Whether a `get_modules` entry is a real (non-synthetic, non-sentinel)
module. -/
def isRealModule : ModuleEntry → Bool
  | ModuleEntry.real _ _ _ _ _ _ _ _ => true
  | _ => false

/-! ## Claim theorems -/

/-- C7: whenever a primitive request receives an HTTP 401 response, the
failure surfaces as the distinct Unauthorized condition, and never as the
generic HttpError condition used for other status codes. -/
theorem C7_unauthorized_distinct {α : Type} (endpoint : String) (body : Option α)
    (status : Nat) (h : status = 401) :
    make_request endpoint (HttpAttempt.response status body) =
      Except.error CanvasError.unauthorized
    ∧ ∀ n, make_request endpoint (HttpAttempt.response status body) ≠
        Except.error (CanvasError.httpError n) := by
  subst h
  have hres : make_request endpoint (HttpAttempt.response 401 body) =
      Except.error CanvasError.unauthorized := rfl
  exact ⟨hres, fun n hn => by rw [hres] at hn; exact absurd hn (by simp)⟩

/-- Witness for C7 at a concrete 401 response. -/
theorem C7_unauthorized_distinct_witness :
    make_request "courses" (HttpAttempt.response 401 (some (0 : Nat))) =
      Except.error CanvasError.unauthorized
    ∧ ∀ n, make_request "courses" (HttpAttempt.response 401 (some (0 : Nat))) ≠
        Except.error (CanvasError.httpError n) :=
  C7_unauthorized_distinct "courses" (some 0) 401 rfl

/-- C10: a course whose raw record has an `"enrollments"` key bound to an
empty list makes `get_courses` raise an uncaught `IndexError`, while an
absent key takes the `[{}]` default and yields a record with a null
`current_grade`. -/
theorem C10_enrollments_index_error :
    get_courses (Except.ok [⟨1, "Course 1", none, none, some []⟩]) =
      Except.error "list index out of range"
    ∧ get_courses (Except.ok [⟨1, "Course 1", none, none, none⟩]) =
      Except.ok [⟨1, "Course 1", "", "", none⟩] := ⟨rfl, rfl⟩

/-- C2 counterexample: an assignment with `has_submitted_submissions = true`
and a submission whose `submitted_at` is null yields `submitted = true`, so
`submitted` is not equivalent to a non-null `submitted_at`. -/
theorem C2_cex :
    get_assignments [c2Raw] = [mkAssignmentOut c2Raw]
    ∧ ¬ ((mkAssignmentOut c2Raw).submitted = true ↔
          (c2Raw.submission.bind RawSubmission.submitted_at).isSome = true) :=
  ⟨rfl, by decide⟩

/-- C2 (amended): every element of `get_assignments`' result has a boolean
`submitted` field equal to the raw assignment's course-wide
`has_submitted_submissions` flag (false when absent), independent of the
included submission's `submitted_at`. -/
theorem C2_submitted_flag (l : List RawAssignment) :
    (get_assignments l).map AssignmentOut.submitted =
      l.map (fun a => a.has_submitted_submissions.getD false) := by
  simp only [get_assignments, List.map_map]
  rfl

/-- C9 counterexample: when the assignments fetch fails, `get_quizzes`
returns an `{"error": ...}` sentinel and `get_quiz_submissions` keeps it, so
a sentinel record does appear in its result (filtering every sentinel, as
the claim states, would leave the empty list). -/
theorem C9_cex :
    get_quiz_submissions (Except.error "boom") =
      [QuizEntry.error "Could not fetch quizzes: boom"]
    ∧ (get_quizzes (Except.error "boom")).filter (fun q => !isSentinelEntry q) = []
    ∧ isSentinelEntry (QuizEntry.error "Could not fetch quizzes: boom") = true :=
  ⟨rfl, rfl, rfl⟩

/-- C9 (amended): `get_quiz_submissions` returns `get_quizzes`' output with
exactly the `"message"`-keyed sentinel entries removed: no `"message"`
sentinel survives, every `"error"` sentinel survives, and no new entries
appear. -/
theorem C9_message_only_filter (fetch : Except String (List RawAssignment)) :
    (∀ m, QuizEntry.message m ∉ get_quiz_submissions fetch)
    ∧ (∀ m, QuizEntry.error m ∈ get_quizzes fetch →
        QuizEntry.error m ∈ get_quiz_submissions fetch)
    ∧ (∀ q, q ∈ get_quiz_submissions fetch → q ∈ get_quizzes fetch) := by
  refine ⟨?_, ?_, ?_⟩
  · intro m hm
    have hm' : QuizEntry.message m ∈ (get_quizzes fetch).filter (fun q => !hasMessageKey q) := hm
    have := (List.mem_filter.1 hm').2
    simp [hasMessageKey] at this
  · intro m hm
    exact List.mem_filter.2 ⟨hm, by simp [hasMessageKey]⟩
  · intro q hq
    have hq' : q ∈ (get_quizzes fetch).filter (fun x => !hasMessageKey x) := hq
    exact (List.mem_filter.1 hq').1

/-- Witness for C9's amended theorem: the error sentinel of a failed fetch
survives the filter. -/
theorem C9_message_only_filter_witness :
    QuizEntry.error "Could not fetch quizzes: boom" ∈
      get_quiz_submissions (Except.error "boom") :=
  (C9_message_only_filter (Except.error "boom")).2.1 "Could not fetch quizzes: boom"
    (by simp [get_quizzes])

/-- C8 counterexample: the empty string is a malformed (non-ISO) date string
(its parse fails), yet `format_date` maps it to `"No date"` rather than
returning it unchanged, because Python's falsy test covers `""` as well. -/
theorem C8_cex :
    format_date (some "") = "No date"
    ∧ parseISO (replaceZ "".toList) = none
    ∧ ("No date" : String) ≠ "" := ⟨rfl, rfl, by decide⟩

/-- C8 (amended): a null/absent *or empty* due date gives the literal
`"No date"`; any non-empty date string whose ISO parse fails is returned
exactly unchanged, without an exception. -/
theorem C8_format_date (s : String) (hne : s ≠ "")
    (hbad : parseISO (replaceZ s.toList) = none) :
    format_date none = "No date" ∧ format_date (some s) = s := by
  refine ⟨rfl, ?_⟩
  have hbad' : parseISO (replaceZ s.data) = none := hbad
  simp [format_date, hne, hbad']

/-- Witness for C8's amended theorem at a concrete malformed string. -/
theorem C8_format_date_witness :
    format_date none = "No date" ∧ format_date (some "banana") = "banana" :=
  C8_format_date "banana" (by decide) (by decide)

/-- `_get_files_as_modules` yields the synthetic module (with at most 20
items) exactly when its files fetch succeeds with a non-empty list. -/
theorem filesAsModules_spec (ff : Except String (List RawFile)) :
    (∃ items, filesAsModules ff = [ModuleEntry.filesModule items] ∧ items.length ≤ 20) ↔
      (∃ f fs, ff = Except.ok (f :: fs)) := by
  cases ff with
  | error e => simp [filesAsModules]
  | ok raw =>
    cases raw with
    | nil => simp [filesAsModules, get_course_files]
    | cons f fs =>
      constructor
      · intro _
        exact ⟨f, fs, rfl⟩
      · intro _
        refine ⟨((get_course_files (f :: fs)).take 20).map
          (fun x => ⟨x.id, x.display_name, x.size, x.url⟩), ?_, ?_⟩
        · simp [filesAsModules, get_course_files]
        · simp only [List.length_map, List.length_take]
          omega

/-- C4 counterexample: with an empty modules fetch *and* no files,
`get_modules` returns the no-modules sentinel, not the synthetic module; and
with a *failing* (not empty) modules fetch but one file, it does return the
synthetic module — both directions of the claimed equivalence fail. -/
theorem C4_cex :
    get_modules (Except.ok []) (Except.ok []) =
      [ModuleEntry.message "No modules or files found for this course"]
    ∧ get_modules (Except.error "down") (Except.ok [c4File]) =
      [ModuleEntry.filesModule [⟨5, "notes.pdf", 1000, "http://x"⟩]] := ⟨rfl, rfl⟩

/-- C4 (amended): `get_modules` returns the single synthetic "Course Files"
module (at most 20 file items) iff the raw modules fetch returns an empty
list *or fails*, and the files fetch succeeds with a non-empty list; when
the modules fetch succeeds with a non-empty list, the real modules are
returned with their count unmodified. -/
theorem C4_modules_fallback (mf : Except String (List RawModule))
    (ff : Except String (List RawFile)) :
    ((∃ items, get_modules mf ff = [ModuleEntry.filesModule items] ∧ items.length ≤ 20) ↔
      ((mf = Except.ok [] ∨ ∃ e, mf = Except.error e) ∧ ∃ f fs, ff = Except.ok (f :: fs)))
    ∧ (∀ m ms, mf = Except.ok (m :: ms) →
        (get_modules mf ff).length = ms.length + 1
        ∧ ∀ x ∈ get_modules mf ff, isRealModule x = true) := by
  refine ⟨?_, ?_⟩
  · cases mf with
    | error e =>
      have hg : get_modules (Except.error e) ff = filesAsModules ff := rfl
      rw [hg, filesAsModules_spec]
      constructor
      · intro h
        exact ⟨Or.inr ⟨e, rfl⟩, h⟩
      · rintro ⟨-, h⟩
        exact h
    | ok ms =>
      cases ms with
      | nil =>
        have hg : get_modules (Except.ok []) ff = filesAsModules ff := rfl
        rw [hg, filesAsModules_spec]
        constructor
        · intro h
          exact ⟨Or.inl rfl, h⟩
        · rintro ⟨-, h⟩
          exact h
      | cons m ms =>
        have hg : get_modules (Except.ok (m :: ms)) ff = (m :: ms).map projModule := by
          simp [get_modules]
        constructor
        · rintro ⟨items, hitems, -⟩
          rw [hg] at hitems
          exact absurd (List.cons.inj hitems).1 (by simp [projModule])
        · rintro ⟨h1 | ⟨e, he⟩, -⟩
          · exact absurd h1 (by simp)
          · exact absurd he (by simp)
  · intro m ms hmf
    subst hmf
    have hg : get_modules (Except.ok (m :: ms)) ff = (m :: ms).map projModule := by
      simp [get_modules]
    rw [hg]
    refine ⟨by simp, ?_⟩
    intro x hx
    rcases List.mem_map.1 hx with ⟨y, -, rfl⟩
    rfl

/-- Witness for C4's amended theorem: fallback on a failing modules fetch
with one file, and count preservation for one real module. -/
theorem C4_modules_fallback_witness :
    (∃ items, get_modules (Except.error "down") (Except.ok [c4File]) =
        [ModuleEntry.filesModule items] ∧ items.length ≤ 20)
    ∧ (get_modules (Except.ok [c4Mod]) (Except.ok [])).length = 1 :=
  ⟨(C4_modules_fallback (Except.error "down") (Except.ok [c4File])).1.2
      ⟨Or.inr ⟨"down", rfl⟩, c4File, [], rfl⟩,
   ((C4_modules_fallback (Except.ok [c4Mod]) (Except.ok [])).2 c4Mod [] rfl).1⟩

/-- `"course_"` is a (Boolean) prefix of `"course_" ++ t`. -/
theorem coursePat_isPrefixOf_append (t : List Char) :
    coursePat.isPrefixOf (coursePat ++ t) = true := by
  simp [List.isPrefixOf_iff_prefix]

/-- `str.replace("course_", "")` consumes a leading occurrence. -/
theorem removeCourseOcc_append_pat (t : List Char) :
    removeCourseOcc (coursePat ++ t) = removeCourseOcc t := by
  have h := coursePat_isPrefixOf_append t
  rw [show coursePat ++ t = 'c' :: (['o', 'u', 'r', 's', 'e', '_'] ++ t) from rfl]
  rw [removeCourseOcc]
  rw [show ('c' :: (['o', 'u', 'r', 's', 'e', '_'] ++ t)) = coursePat ++ t from rfl, h]
  simp

/-- On a string without any occurrence of `"course_"`, the replace is the
identity. -/
theorem removeCourseOcc_no_occ (t : List Char) (h : containsSub coursePat t = false) :
    removeCourseOcc t = t := by
  induction t with
  | nil => simp [removeCourseOcc]
  | cons c r ih =>
    rw [containsSub, Bool.or_eq_false_iff] at h
    rw [removeCourseOcc, h.1]
    simp [ih h.2]

/-- C5 counterexample: a context code containing `"course_"` twice.  The
code's `str.replace` removes *every* occurrence, yielding `"123"`, while the
claimed prefix-stripping yields `"course_123"`. -/
theorem C5_cex :
    (get_announcements [c5Course] nowNaive 7 (fun _ => [c5Ann])).map AnnOut.course_id = ["123"]
    ∧ specStripCtx "course_course_123".toList = "course_123".toList
    ∧ ("123" : String) ≠ "course_123" := by
  refine ⟨?_, by decide, by decide⟩
  simp [get_announcements, projAnnouncement, c5Ann, removeCourseOcc, coursePat,
    announcementsParams, List.asString]

/-- C5 (amended): `get_announcements` issues one API call whose query holds
the context codes of all the caller's courses and the start date
`now - days`, and its result is the projection of that single call's answer;
each `course_id` is the context code with every occurrence of `"course_"`
removed, which agrees with prefix-stripping exactly on context codes where
`"course_"` occurs only as the leading prefix (e.g. `"course_123" → "123"`). -/
theorem C5_announcements (courses : List CourseOut) (now : PyDateTime) (days : Nat)
    (respond : AnnParams → List RawAnnouncement) :
    get_announcements courses now days respond =
      (respond ⟨courses.map (fun c => "course_" ++ toString c.id),
                isoformat (subDays now days)⟩).map projAnnouncement
    ∧ ∀ t : List Char, containsSub coursePat t = false →
        removeCourseOcc (coursePat ++ t) = specStripCtx (coursePat ++ t)
        ∧ removeCourseOcc (coursePat ++ t) = t := by
  constructor
  · rfl
  · intro t ht
    have h1 : removeCourseOcc (coursePat ++ t) = removeCourseOcc t :=
      removeCourseOcc_append_pat t
    have h2 := removeCourseOcc_no_occ t ht
    have h3 : specStripCtx (coursePat ++ t) = t := by
      rw [specStripCtx, if_pos]
      · rw [show (7 : Nat) = coursePat.length from rfl]
        exact List.drop_left coursePat t
      · exact coursePat_isPrefixOf_append t
    exact ⟨by rw [h1, h2, h3], by rw [h1, h2]⟩

/-- Witness for C5's amended theorem: on the prefix-only context code
`"course_123"` the replace agrees with prefix-stripping and yields `"123"`. -/
theorem C5_announcements_witness :
    removeCourseOcc (coursePat ++ "123".toList) = specStripCtx (coursePat ++ "123".toList)
    ∧ removeCourseOcc (coursePat ++ "123".toList) = "123".toList :=
  (C5_announcements [] nowNaive 0 (fun _ => [])).2 "123".toList (by decide)

/-- C1 (code bug): an assignment whose *raw* due date lies strictly inside
`[now, now+7]` UTC is nevertheless dropped — `get_upcoming_assignments`
returns `[]` — because the loop parses the display-formatted `due_at`
(`"October 02, 2025 at 12:00 PM"`), `fromisoformat` raises, and the
per-course handler abandons the course. -/
theorem C1_always_empty_despite_due_in_window :
    get_upcoming_assignments [c1Course] (fun _ => Except.ok [c1Raw]) nowUtc 7 = []
    ∧ parseISO (replaceZ "2025-10-02T12:00:00Z".toList) =
        some ⟨2025, 10, 2, 12, 0, 0, some 0⟩
    ∧ dtLe nowUtc ⟨2025, 10, 2, 12, 0, 0, some 0⟩ = some true
    ∧ dtLe ⟨2025, 10, 2, 12, 0, 0, some 0⟩ (addDays nowUtc 7) = some true
    ∧ (mkAssignmentOut c1Raw).due_at = "October 02, 2025 at 12:00 PM" :=
  ⟨rfl, rfl, rfl, rfl, rfl⟩

/-- C3 counterexample: the grades fetch fails and the *whole* summary
degrades to an `{"error": ...}` record — the other sections are not
returned, contradicting per-section degradation. -/
theorem C3_cex :
    get_course_summary (Except.ok [c3Course]) (Except.error "boom") (Except.ok [])
        nowNaive "1" =
      SummaryResult.err "Could not fetch course summary: boom" := rfl

/-- C3 (amended): when the course is found, a failure of the assignments
sub-fetch degrades only that section (empty list) and the announcements
section is always empty (the announcements call passes the course id where
a day count is expected and so always raises); but a failure of the grades
fetch makes the whole call return an error record instead of a summary. -/
theorem C3_summary_sections (cf : Except String (List RawCourse))
    (ef : Except String (List RawEnrollment)) (now : PyDateTime) (cid : String)
    (cs : List CourseOut) (c : CourseOut)
    (hcs : get_courses cf = Except.ok cs)
    (hc : cs.find? (fun x => toString x.id == cid) = some c) :
    (∀ e af, ef = Except.error e →
        get_course_summary cf ef af now cid =
          SummaryResult.err ("Could not fetch course summary: " ++ e))
    ∧ (∀ g af, get_grades ef = Except.ok g → ∃ up,
        get_course_summary cf ef af now cid =
          SummaryResult.ok ⟨c.name, c.course_code, g, up, []⟩)
    ∧ (∀ g m, get_grades ef = Except.ok g →
        get_course_summary cf ef (Except.error m) now cid =
          SummaryResult.ok ⟨c.name, c.course_code, g, [], []⟩) := by
  refine ⟨?_, ?_, ?_⟩
  · intro e af hef
    subst hef
    simp [get_course_summary, hcs, hc, get_grades]
  · intro g af hg
    cases af with
    | error m => exact ⟨[], by simp [get_course_summary, hcs, hc, hg]⟩
    | ok raws =>
      exact ⟨summaryUpcoming now (addDays now 7) (get_assignments raws),
        by simp [get_course_summary, hcs, hc, hg]⟩
  · intro g m hg
    simp [get_course_summary, hcs, hc, hg]

/-- A concrete enrollment for C3's witness. -/
def c3Enroll : RawEnrollment := ⟨some ⟨none, some "B", none, none, none, none⟩⟩

/-- Witness for C3's amended theorem: assignments fetch fails, the summary
is still returned with an empty assignments section. -/
theorem C3_summary_sections_witness :
    get_course_summary (Except.ok [c3Course]) (Except.ok [c3Enroll])
        (Except.error "assignments down") nowNaive "1" =
      SummaryResult.ok ⟨"Course 1", "C1",
        GradesResult.grades none (some "B") none none none none, [], []⟩ :=
  (C3_summary_sections (Except.ok [c3Course]) (Except.ok [c3Enroll]) nowNaive "1"
      [⟨1, "Course 1", "C1", "", some "B"⟩] ⟨1, "Course 1", "C1", "", some "B"⟩ rfl rfl).2.2
    (GradesResult.grades none (some "B") none none none none) "assignments down" rfl

/-! ## The no-HTML-tag property for C6 -/

/-- No substring of `l` matches the tag pattern `<[^>]+>`: whenever `l`
splits as `a ++ '<' :: (m ++ '>' :: b)`, the middle is empty or itself
contains a `'>'`. -/
def noTag (l : List Char) : Prop :=
  ∀ a m b, l = a ++ '<' :: (m ++ '>' :: b) → m = [] ∨ '>' ∈ m

/-- Invariant preserved by the cleaning pipeline: every `'<'` is immediately
followed by `'>'`, or no `'>'` occurs after it at all. -/
def ltOk (l : List Char) : Prop :=
  ∀ a b, l = a ++ '<' :: b → b.head? = some '>' ∨ '>' ∉ b

/-- The stronger invariant: every `'<'` is immediately followed by `'>'`. -/
def ltStrict (l : List Char) : Prop :=
  ∀ a b, l = a ++ '<' :: b → b.head? = some '>'

theorem ltOk_nil : ltOk [] := by
  intro a b h
  exact absurd h (by simp)

theorem ltOk_cons (c : Char) (l : List Char) (hl : ltOk l)
    (hc : c = '<' → l.head? = some '>' ∨ '>' ∉ l) : ltOk (c :: l) := by
  intro a b h
  cases a with
  | nil =>
    simp only [List.nil_append, List.cons.injEq] at h
    exact h.2 ▸ hc h.1
  | cons a0 a' =>
    simp only [List.cons_append, List.cons.injEq] at h
    exact hl a' b h.2

theorem ltOk_of_cons {c : Char} {l : List Char} (h : ltOk (c :: l)) : ltOk l := by
  intro a b hab
  exact h (c :: a) b (by simp [hab])

theorem ltOk_head {l : List Char} (h : ltOk ('<' :: l)) :
    l.head? = some '>' ∨ '>' ∉ l := h [] l rfl

theorem ltOk_append_right {x y : List Char} (h : ltOk (x ++ y)) : ltOk y := by
  induction x with
  | nil => exact h
  | cons c x' ih => exact ih (ltOk_of_cons h)

theorem ltOk_take {l : List Char} (h : ltOk l) (n : Nat) : ltOk (l.take n) := by
  intro a b hab
  have h0 : l = (a ++ '<' :: b) ++ l.drop n := by
    rw [← hab]
    exact (List.take_append_drop n l).symm
  have hl : l = a ++ '<' :: (b ++ l.drop n) := by
    conv_lhs => rw [h0]
    simp
  rcases h a (b ++ l.drop n) hl with h1 | h1
  · cases b with
    | nil => exact Or.inr (by simp)
    | cons b0 b' =>
      simp only [List.cons_append, List.head?_cons, Option.some.injEq] at h1
      exact Or.inl (by simp [h1])
  · exact Or.inr (fun hin => h1 (List.mem_append.2 (Or.inl hin)))

theorem ltOk_append_no_gt {x y : List Char} (hx : ltOk x) (hy : ltOk y)
    (hgt : '>' ∉ y) : ltOk (x ++ y) := by
  induction x with
  | nil => exact hy
  | cons c x' ih =>
    refine ltOk_cons c (x' ++ y) (ih (ltOk_of_cons hx)) ?_
    intro hc
    subst hc
    rcases ltOk_head hx with h1 | h1
    · cases x' with
      | nil => simp at h1
      | cons a0 a' =>
        simp only [List.head?_cons, Option.some.injEq] at h1
        exact Or.inl (by simp [h1])
    · exact Or.inr (fun hin => (List.mem_append.1 hin).elim h1 hgt)

theorem ltStrict_of_cons {c : Char} {l : List Char} (h : ltStrict (c :: l)) : ltStrict l := by
  intro a b hab
  exact h (c :: a) b (by simp [hab])

theorem ltOk_append_of_strict {x y : List Char} (hx : ltStrict x) (hy : ltOk y) :
    ltOk (x ++ y) := by
  induction x with
  | nil => exact hy
  | cons c x' ih =>
    refine ltOk_cons c (x' ++ y) (ih (ltStrict_of_cons hx)) ?_
    intro hc
    subst hc
    have h1 := hx [] x' rfl
    cases x' with
    | nil => simp at h1
    | cons a0 a' =>
      simp only [List.head?_cons, Option.some.injEq] at h1
      exact Or.inl (by simp [h1])

theorem ltOk_of_no_lt {l : List Char} (h : '<' ∉ l) : ltOk l := by
  intro a b hab
  exact absurd (hab ▸ List.mem_append.2 (Or.inr (by simp))) h

theorem noTag_of_ltOk {l : List Char} (h : ltOk l) : noTag l := by
  intro a m b hab
  rcases h a (m ++ '>' :: b) hab with h1 | h1
  · cases m with
    | nil => exact Or.inl rfl
    | cons m0 m' =>
      simp only [List.cons_append, List.head?_cons, Option.some.injEq] at h1
      exact Or.inr (by simp [h1])
  · exact absurd (List.mem_append.2 (Or.inr (by simp))) h1

/-- Unfolding of `stripTags` at a head that is not `'<'`. -/
theorem stripTags_cons_ne (c : Char) (rest : List Char) (hc : ¬ c = '<') :
    stripTags (c :: rest) = c :: stripTags rest := by
  rw [stripTags.eq_def]
  split
  · rename_i heq
    exact absurd heq (by simp)
  · rename_i heq
    simp only [List.cons.injEq] at heq
    exact absurd heq.1 hc
  · rename_i rest2 heq
    simp only [List.cons.injEq] at heq
    exact absurd heq.1 hc
  · rename_i d rest2 heq
    simp only [List.cons.injEq] at heq
    exact absurd heq.1 hc
  · rename_i c' rest' h1 h2 h3 heq
    simp only [List.cons.injEq] at heq
    rw [← heq.1, ← heq.2]

/-- Unfolding of `stripTags` at `'<'` followed by a non-`'>'` character. -/
theorem stripTags_lt_br (d : Char) (rest2 : List Char) (hd : ¬ d = '>') :
    stripTags ('<' :: d :: rest2) =
      (if rest2.any (fun x => x == '>') then
        stripTags ((rest2.dropWhile (fun x => x != '>')).tail)
       else '<' :: stripTags (d :: rest2)) := by
  rw [stripTags.eq_def]
  split
  · rename_i heq
    exact absurd heq (by simp)
  · rename_i heq
    simp only [List.cons.injEq] at heq
    exact absurd heq.2 (by simp)
  · rename_i rest2' heq
    simp only [List.cons.injEq] at heq
    exact absurd heq.2.1 hd
  · rename_i d' rest2' heq
    simp only [List.cons.injEq] at heq
    rw [← heq.2.1, ← heq.2.2]
  · rename_i c' rest' h1 h2 h3 heq
    simp only [List.cons.injEq] at heq
    exact absurd heq.2.symm (h3 d rest2 heq.1.symm)

/-- `stripTags` only deletes characters. -/
theorem stripTags_mem : ∀ (l : List Char) (c : Char), c ∈ stripTags l → c ∈ l := by
  intro l
  induction l using stripTags.induct with
  | case1 => simp [stripTags]
  | case2 => simp [stripTags]
  | case3 rest2 ih =>
    intro c hc
    rw [stripTags] at hc
    rcases List.mem_cons.1 hc with h | h
    · simp [h]
    · exact List.mem_cons_of_mem _ (ih c h)
  | case4 d rest2 hd hany ih =>
    intro c hc
    rw [stripTags_lt_br d rest2 hd, if_pos hany] at hc
    have h2 := ih c hc
    have h3 : c ∈ rest2 := (List.dropWhile_sublist _).subset ((List.tail_sublist _).subset h2)
    exact List.mem_cons_of_mem _ (List.mem_cons_of_mem _ h3)
  | case5 d rest2 hd hany ih =>
    intro c hc
    rw [stripTags_lt_br d rest2 hd, if_neg hany] at hc
    rcases List.mem_cons.1 hc with h | h
    · simp [h]
    · exact List.mem_cons_of_mem _ (ih c h)
  | case6 c' rest h1 h2 h3 ih =>
    intro c hc
    have hc' : ¬ c' = '<' := by
      intro he
      cases rest with
      | nil => exact h1 he rfl
      | cons d r2 => exact h3 d r2 he rfl
    rw [stripTags_cons_ne c' rest hc'] at hc
    rcases List.mem_cons.1 hc with h | h
    · simp [h]
    · exact List.mem_cons_of_mem _ (ih c h)

/-- The tag-removal output satisfies the `ltOk` invariant. -/
theorem ltOk_stripTags : ∀ l : List Char, ltOk (stripTags l) := by
  intro l
  induction l using stripTags.induct with
  | case1 =>
    have h : stripTags [] = [] := by simp [stripTags]
    rw [h]
    exact ltOk_nil
  | case2 =>
    have h : stripTags ['<'] = ['<'] := by simp [stripTags]
    rw [h]
    intro a b hab
    cases a with
    | nil =>
      simp only [List.nil_append, List.cons.injEq] at hab
      exact Or.inr (hab.2 ▸ (by simp))
    | cons a0 a' => simp at hab
  | case3 rest2 ih =>
    rw [stripTags, stripTags_cons_ne '>' rest2 (by decide)]
    rw [stripTags_cons_ne '>' rest2 (by decide)] at ih
    exact ltOk_cons _ _ ih (fun _ => Or.inl rfl)
  | case4 d rest2 hd hany ih =>
    rw [stripTags_lt_br d rest2 hd, if_pos hany]
    exact ih
  | case5 d rest2 hd hany ih =>
    rw [stripTags_lt_br d rest2 hd, if_neg hany]
    refine ltOk_cons _ _ ih ?_
    intro _
    refine Or.inr ?_
    intro hin
    have h2 := stripTags_mem (d :: rest2) '>' hin
    rcases List.mem_cons.1 h2 with h | h
    · exact hd h.symm
    · exact hany (List.any_eq_true.2 ⟨'>', h, by simp⟩)
  | case6 c' rest h1 h2 h3 ih =>
    have hc' : ¬ c' = '<' := by
      intro he
      cases rest with
      | nil => exact h1 he rfl
      | cons d r2 => exact h3 d r2 he rfl
    rw [stripTags_cons_ne c' rest hc']
    exact ltOk_cons _ _ ih (fun he => absurd he hc')

/-- Characters of any word of `words l` come from `l`. -/
theorem words_mem : ∀ (l w : List Char), w ∈ words l → ∀ c ∈ w, c ∈ l := by
  intro l
  induction l using words.induct with
  | case1 =>
    intro w hw
    rw [words] at hw
    exact absurd hw (by simp)
  | case2 c r hws ih =>
    intro w hw c' hc'
    rw [words, if_pos hws] at hw
    exact List.mem_cons_of_mem _ (ih w hw c' hc')
  | case3 c r hws ih =>
    intro w hw c' hc'
    rw [words, if_neg hws] at hw
    rcases List.mem_cons.1 hw with hveq | hmem
    · subst hveq
      rcases List.mem_cons.1 hc' with h2 | h2
      · simp [h2]
      · exact List.mem_cons_of_mem _ ((List.takeWhile_prefix _).sublist.subset h2)
    · exact List.mem_cons_of_mem _ ((List.dropWhile_sublist _).subset (ih w hmem c' hc'))

/-- Characters of `' '.join(ws)` are spaces or come from some word. -/
theorem joinSp_mem : ∀ (ws : List (List Char)) (c : Char),
    c ∈ joinSp ws → c = ' ' ∨ ∃ w ∈ ws, c ∈ w := by
  intro ws
  induction ws with
  | nil =>
    intro c hc
    rw [joinSp] at hc
    exact absurd hc (by simp)
  | cons w ws' ih =>
    intro c hc
    cases ws' with
    | nil =>
      rw [joinSp] at hc
      exact Or.inr ⟨w, by simp, hc⟩
    | cons w2 rest =>
      rw [joinSp] at hc
      rcases List.mem_append.1 hc with h | h
      · exact Or.inr ⟨w, by simp, h⟩
      · rcases List.mem_cons.1 h with h2 | h2
        · exact Or.inl h2
        · rcases ih c h2 with h3 | ⟨w', hw', hcw⟩
          · exact Or.inl h3
          · exact Or.inr ⟨w', List.mem_cons_of_mem _ hw', hcw⟩

/-- The head of a `dropWhile` result falsifies the predicate. -/
theorem dropWhile_head_not (p : Char → Bool) :
    ∀ (l : List Char) (c : Char) (rest : List Char),
      l.dropWhile p = c :: rest → p c = false := by
  intro l
  induction l with
  | nil =>
    intro c rest h
    simp [List.dropWhile] at h
  | cons a l' ih =>
    intro c rest h
    rw [List.dropWhile_cons] at h
    by_cases hp : p a = true
    · rw [if_pos hp] at h
      exact ih c rest h
    · rw [if_neg hp] at h
      simp only [List.cons.injEq] at h
      rw [← h.1]
      simpa using hp

/-- Whitespace collapsing preserves the `ltOk` invariant. -/
theorem ltOk_collapseWs : ∀ l : List Char, ltOk l → ltOk (collapseWs l) := by
  intro l
  induction l using words.induct with
  | case1 =>
    intro _
    have heq : collapseWs [] = [] := by rw [collapseWs, words, joinSp]
    rw [heq]
    exact ltOk_nil
  | case2 c r hws ih =>
    intro h
    have heq : collapseWs (c :: r) = collapseWs r := by
      rw [collapseWs, collapseWs, words, if_pos hws]
    rw [heq]
    exact ih (ltOk_of_cons h)
  | case3 c r hws ih =>
    intro h
    have hjw : collapseWs (c :: r) =
        joinSp ((c :: r.takeWhile (fun d => !pyIsSpace d)) ::
          words (r.dropWhile (fun d => !pyIsSpace d))) := by
      rw [collapseWs, words, if_neg hws]
    have hsplit : r = r.takeWhile (fun d => !pyIsSpace d) ++ r.dropWhile (fun d => !pyIsSpace d) :=
      (List.takeWhile_append_dropWhile _ _).symm
    have htake : (c :: r).take ((r.takeWhile (fun d => !pyIsSpace d)).length + 1) =
        c :: r.takeWhile (fun d => !pyIsSpace d) := by
      rw [List.take_succ_cons]
      congr 1
      have hpre := @List.takeWhile_prefix _ r (fun d => !pyIsSpace d)
      rw [List.prefix_iff_eq_take] at hpre
      exact hpre.symm
    have hcw_ok : ltOk (c :: r.takeWhile (fun d => !pyIsSpace d)) := by
      rw [← htake]
      exact ltOk_take h _
    have hr_ok : ltOk (r.dropWhile (fun d => !pyIsSpace d)) := by
      have h1 : ltOk r := ltOk_of_cons h
      rw [hsplit] at h1
      exact ltOk_append_right h1
    rw [hjw]
    cases hwr : words (r.dropWhile (fun d => !pyIsSpace d)) with
    | nil =>
      rw [joinSp]
      exact hcw_ok
    | cons W Ws =>
      rw [joinSp]
      have hcoll : ltOk (joinSp (W :: Ws)) := by
        have h2 := ih hr_ok
        rw [collapseWs, hwr] at h2
        exact h2
      have hy : ltOk (' ' :: joinSp (W :: Ws)) :=
        ltOk_cons _ _ hcoll (fun he => absurd he (by decide))
      by_cases hgt : '>' ∈ r.dropWhile (fun d => !pyIsSpace d)
      · refine ltOk_append_of_strict ?_ hy
        intro a b hab
        have hl : c :: r = a ++ '<' :: (b ++ r.dropWhile (fun d => !pyIsSpace d)) := by
          have hx : c :: r = (c :: r.takeWhile (fun d => !pyIsSpace d)) ++
              r.dropWhile (fun d => !pyIsSpace d) := by
            rw [List.cons_append]
            congr 1
          rw [hx, hab]
          simp
        rcases h a (b ++ r.dropWhile (fun d => !pyIsSpace d)) hl with h1 | h1
        · cases b with
          | nil =>
            cases hrc : r.dropWhile (fun d => !pyIsSpace d) with
            | nil =>
              rw [hrc] at hgt
              simp at hgt
            | cons rc rrest =>
              rw [hrc] at h1
              simp only [List.nil_append, List.head?_cons, Option.some.injEq] at h1
              have hq := dropWhile_head_not (fun d => !pyIsSpace d) r rc rrest hrc
              rw [h1] at hq
              exact absurd hq (by decide)
          | cons b0 b' =>
            simp only [List.cons_append, List.head?_cons, Option.some.injEq] at h1
            simp [h1]
        · exact absurd (List.mem_append.2 (Or.inr hgt)) h1
      · refine ltOk_append_no_gt hcw_ok hy ?_
        intro hin
        rcases List.mem_cons.1 hin with h1 | h1
        · exact absurd h1 (by decide)
        · rcases joinSp_mem (W :: Ws) '>' h1 with h2 | ⟨w', hw', hcw⟩
          · exact absurd h2 (by decide)
          · refine hgt (words_mem _ w' ?_ '>' hcw)
            rw [hwr]
            exact hw'

/-- Truncation preserves the `ltOk` invariant. -/
theorem ltOk_truncate300 {l : List Char} (h : ltOk l) : ltOk (truncate300 l) := by
  rw [truncate300]
  split
  · exact ltOk_append_no_gt (ltOk_take h 300) (ltOk_of_no_lt (by decide)) (by decide)
  · exact h

/-- The truncated text has at most 303 characters. -/
theorem truncate300_length (l : List Char) : (truncate300 l).length ≤ 303 := by
  rw [truncate300]
  split
  · simp only [List.length_append, List.length_take, List.length_cons, List.length_nil]
    omega
  · rename_i hn
    omega

/-- The full cleaning pipeline yields a tag-free string. -/
theorem strip_html_ltOk (s : String) : ltOk (strip_html s).toList := by
  rw [strip_html]
  by_cases hs : s = ""
  · rw [if_pos hs]
    exact ltOk_nil
  · rw [if_neg hs, List.toList_asString]
    exact ltOk_truncate300 (ltOk_collapseWs _ (ltOk_stripTags _))

/-- The cleaned-and-truncated message has at most 303 characters. -/
theorem strip_html_length (s : String) : (strip_html s).length ≤ 303 := by
  rw [strip_html]
  by_cases hs : s = ""
  · rw [if_pos hs]
    decide
  · rw [if_neg hs, List.length_asString]
    exact truncate300_length _

/-- C6: every message string in `get_discussions`' result is HTML-tag-free
(no substring matches `<[^>]+>`) and at most 303 characters long; truncation
(appending `"..."` after 300 characters) is applied only when the cleaned
text exceeds 300 characters, otherwise the message is exactly the cleaned
text. -/
theorem C6_discussion_messages (fetch : Except String (List RawDiscussion)) :
    (∀ e ∈ get_discussions fetch, ∀ m, entryMessage e = some m →
        noTag m.toList ∧ m.length ≤ 303)
    ∧ (∀ s : String, (collapseWs (stripTags s.toList)).length ≤ 300 →
        strip_html s = (collapseWs (stripTags s.toList)).asString) := by
  constructor
  · intro e he m hm
    cases fetch with
    | error err =>
      simp only [get_discussions, List.mem_singleton] at he
      subst he
      simp [entryMessage] at hm
    | ok ds =>
      cases ds with
      | nil =>
        simp only [get_discussions, List.mem_singleton] at he
        subst he
        simp only [entryMessage, Option.some.injEq] at hm
        subst hm
        constructor
        · exact noTag_of_ltOk (ltOk_of_no_lt (by decide))
        · decide
      | cons d rest =>
        rw [get_discussions] at he
        rcases List.mem_map.1 he with ⟨x, -, rfl⟩
        simp only [entryMessage, Option.some.injEq] at hm
        subst hm
        exact ⟨noTag_of_ltOk (strip_html_ltOk _), strip_html_length _⟩
  · intro s hs
    rw [strip_html]
    by_cases hemp : s = ""
    · rw [if_pos hemp]
      subst hemp
      have h1 : stripTags ("" : String).toList = [] := by simp [stripTags]
      rw [h1]
      have h2 : collapseWs [] = [] := by rw [collapseWs, words, joinSp]
      rw [h2]
      rfl
    · rw [if_neg hemp, truncate300, if_neg (Nat.not_lt.2 hs)]

/-- A raw discussion whose message carries an HTML tag. -/
def c6Raw : RawDiscussion := ⟨21, "Intro", some "<p>Hello</p>", none, none, none, none⟩

/-- Witness for C6 at a concrete fetched discussion list: the produced
message `"Hello"` (tags stripped, untruncated) is tag-free and short. -/
theorem C6_discussion_messages_witness :
    noTag ("Hello" : String).toList ∧ ("Hello" : String).length ≤ 303 := by
  have heval : get_discussions (Except.ok [c6Raw]) =
      [DiscEntry.data ⟨21, "Intro", "Hello", none, "Unknown", 0, 0⟩] := by
    simp [get_discussions, c6Raw, strip_html, stripTags, collapseWs, words, joinSp,
      truncate300, pyIsSpace, List.asString, List.dropWhile, List.takeWhile, Option.bind]
  have hmem : DiscEntry.data ⟨21, "Intro", "Hello", none, "Unknown", 0, 0⟩ ∈
      get_discussions (Except.ok [c6Raw]) := by
    rw [heval]
    exact List.mem_singleton.2 rfl
  exact (C6_discussion_messages (Except.ok [c6Raw])).1
    (DiscEntry.data ⟨21, "Intro", "Hello", none, "Unknown", 0, 0⟩) hmem "Hello" rfl
